import Mathlib

/-!
# Verification of the assistant/topic management core of cherry-studio

Shallow embedding of the API-server service layer:

* `TopicApiService`   — `src/unnamed/part_000` (topic CRUD, dual-store writes)
* `AssistantApiService` — `src/main/apiServer/services/assistant.ts`
* `AssistantMCPService` — `src/unnamed/part_000` (MCP tool surface)
* `RestTopicsRoute`   — inline topic-creation route in
  `src/main/apiServer/routes/topics.ts`

Nondeterministic inputs of the TypeScript code (uuid generation, the clock,
availability/failure of the renderer database) are made explicit parameters.
The shared Redux store is the `AppState`; dispatched Redux actions are
recorded in an explicit list; the renderer (Dexie) database is the
`DurableStore`.
-/

/-- A chat message record (`Message` in `renderer/src/types`).  Only the
fields the main-process services read or write are modelled. -/
structure Message where
  id : String
  assistantId : String
  role : String
  content : String
  topicId : String
  createdAt : String
  status : String
  type : String
deriving Repr, DecidableEq

/-- A conversation topic record.  `isNameManuallyEdited` is an optional field
in the TypeScript objects: `none` models a record built without the field
(the MCP / inline-route literals), `some b` a record carrying it. -/
structure Topic where
  id : String
  assistantId : String
  name : String
  createdAt : String
  updatedAt : String
  messages : List Message
  isNameManuallyEdited : Option Bool
deriving Repr, DecidableEq

/-- An assistant record.  Fields are the ones the services touch. -/
structure Assistant where
  id : String
  name : String
  prompt : String
  topics : List Topic
  type : String
  emoji : String
  description : String
  regularPhrases : List String
deriving Repr, DecidableEq

/-- `Partial<Topic>`: caller-supplied fields; `none` = field absent. -/
structure TopicPatch where
  id : Option String := none
  assistantId : Option String := none
  name : Option String := none
  createdAt : Option String := none
  updatedAt : Option String := none
  messages : Option (List Message) := none
  isNameManuallyEdited : Option Bool := none
deriving Repr, DecidableEq

/-- `Partial<Message>`. -/
structure MessagePatch where
  id : Option String := none
  assistantId : Option String := none
  role : Option String := none
  content : Option String := none
  topicId : Option String := none
  createdAt : Option String := none
  status : Option String := none
  type : Option String := none
deriving Repr, DecidableEq

/-- `Partial<Assistant>`. -/
structure AssistantPatch where
  id : Option String := none
  name : Option String := none
  prompt : Option String := none
  topics : Option (List Topic) := none
  type : Option String := none
  emoji : Option String := none
  description : Option String := none
  regularPhrases : Option (List String) := none
deriving Repr, DecidableEq

/-- The slice of the shared Redux store the services read
(`state.assistants.assistants`).  `none` models the collection being
absent / not an array (store not yet initialized). -/
structure AppState where
  assistants : Option (List Assistant)
deriving Repr, DecidableEq

/-- Redux actions dispatched by the services.  The payloads are exactly the
ones the source builds. -/
inductive ReduxAction where
  | addTopic (assistantId : String) (topic : Topic)
  | updateTopic (assistantId : String) (topic : Topic)
  | removeTopic (assistantId : String) (topic : Topic)
  | addAssistant (a : Assistant)
  | updateAssistant (a : Assistant)
  | removeAssistant (id : String)
deriving Repr, DecidableEq

/-- The renderer (Dexie) topics table: id ↦ stored message array. -/
abbrev DurableStore := List (String × List Message)

/-- `db.topics.add({id, messages})`: inserts a fresh row (Dexie `add`). -/
def dbAdd (db : DurableStore) (id : String) (msgs : List Message) : DurableStore :=
  db ++ [(id, msgs)]

/-- `db.topics.update(id, {messages})`: overwrites the row when present. -/
def dbUpdate (db : DurableStore) (id : String) (msgs : List Message) : DurableStore :=
  db.map (fun r => if r.1 = id then (id, msgs) else r)

/-- `db.topics.delete(id)`. -/
def dbDelete (db : DurableStore) (id : String) : DurableStore :=
  db.filter (fun r => !(r.1 = id))

/-- Outcome of the renderer-database call attached to an operation:
`unavailable` = no main window / fallback mock (call skipped or a no-op),
`ok` = the call succeeds, `fails msg` = the call rejects with `msg`. -/
inductive DbOutcome where
  | unavailable
  | ok
  | fails (msg : String)
deriving Repr, DecidableEq

deriving instance DecidableEq for Except

/-- Result of one service call: the returned value or thrown error message,
the Redux actions dispatched (in order), and the durable store afterwards. -/
structure OpResult (α : Type) where
  result : Except String α
  actions : List ReduxAction
  durable : DurableStore
deriving Repr, DecidableEq

/-- JavaScript `x || d` on an optional string (falsy = absent or empty). -/
def jsOr (o : Option String) (d : String) : String :=
  match o with
  | some v => if v = "" then d else v
  | none => d

/-- Topic metadata without the `messages` field
(`Omit<Topic, 'messages'>`, the projection the list endpoints return). -/
structure TopicMeta where
  id : String
  assistantId : String
  name : String
  createdAt : String
  updatedAt : String
  isNameManuallyEdited : Option Bool
deriving Repr, DecidableEq

/-- Drop the message array from a topic. -/
def Topic.stripMessages (t : Topic) : TopicMeta :=
  { id := t.id, assistantId := t.assistantId, name := t.name,
    createdAt := t.createdAt, updatedAt := t.updatedAt,
    isNameManuallyEdited := t.isNameManuallyEdited }

/-- Assistant metadata without the `topics` field
(`Omit<Assistant, 'topics'>`). -/
structure AssistantMeta where
  id : String
  name : String
  prompt : String
  type : String
  emoji : String
  description : String
  regularPhrases : List String
deriving Repr, DecidableEq

/-- Drop the topics array from an assistant. -/
def Assistant.stripTopics (a : Assistant) : AssistantMeta :=
  { id := a.id, name := a.name, prompt := a.prompt, type := a.type,
    emoji := a.emoji, description := a.description,
    regularPhrases := a.regularPhrases }

namespace AssistantApiService

/-- `AssistantApiService.getAllAssistants`: reads the collection and maps the
topic-stripping projection over it.  There is no array guard here: when the
collection is absent the `.map` throws and the catch block rethrows
`'Failed to retrieve assistants'`. -/
def getAllAssistants (s : AppState) : Except String (List AssistantMeta) :=
  match s.assistants with
  | none => Except.error "Failed to retrieve assistants"
  | some as => Except.ok (as.map Assistant.stripTopics)

/-- `AssistantApiService.getAssistantById`: linear scan by id.  When the
collection is absent the `.find` throws and the catch rethrows a wrapped
error; a miss returns `null`, never an error. -/
def getAssistantById (s : AppState) (id : String) : Except String (Option Assistant) :=
  match s.assistants with
  | none => Except.error ("Failed to retrieve assistant " ++ id)
  | some as => Except.ok (as.find? (fun a => a.id = id))

end AssistantApiService

namespace TopicApiService

/-- The scan inside `getTopicById`: first assistant whose topic list holds
the id, first matching topic inside it. -/
def findTopicIn : List Assistant → String → Option Topic
  | [], _ => none
  | a :: rest, id =>
    match a.topics.find? (fun t => t.id = id) with
    | some t => some t
    | none => findTopicIn rest id

/-- `TopicApiService.getTopicById`: guarded against an uninitialized
collection (returns `null`), otherwise scans all assistants. -/
def getTopicById (s : AppState) (id : String) : Option Topic :=
  match s.assistants with
  | none => none
  | some as => findTopicIn as id

/-- `TopicApiService.getAllTopics`: guarded against an uninitialized
collection (returns `[]`); with a filter id, resolves the assistant first and
the catch wraps the miss into `'Failed to retrieve topics'`. -/
def getAllTopics (s : AppState) (assistantId : Option String) :
    Except String (List TopicMeta) :=
  match s.assistants with
  | none => Except.ok []
  | some as =>
    match assistantId with
    | some aid =>
      match as.find? (fun a => a.id = aid) with
      | none => Except.error "Failed to retrieve topics"
      | some a => Except.ok (a.topics.map Topic.stripMessages)
    | none => Except.ok ((as.flatMap (fun a => a.topics)).map Topic.stripMessages)

/-- `TopicApiService.getTopicMessages`: NotFound when the topic does not
resolve, otherwise the topic's message array. -/
def getTopicMessages (s : AppState) (id : String) : Except String (List Message) :=
  match getTopicById s id with
  | none => Except.error ("Topic " ++ id ++ " not found")
  | some t => Except.ok t.messages

/-- The topic literal built by `TopicApiService.createTopic`:
`{ id: uuid(), assistantId, name: 'New Conversation', createdAt/updatedAt:
now, messages: [], isNameManuallyEdited: false, ...topicData, assistantId }`.
The caller patch spreads over every default; only `assistantId` is
re-asserted after the spread. -/
def mkNewTopic (assistantId freshId now : String) (topicData : TopicPatch) : Topic :=
  { id := topicData.id.getD freshId
    assistantId := assistantId
    name := topicData.name.getD "New Conversation"
    createdAt := topicData.createdAt.getD now
    updatedAt := topicData.updatedAt.getD now
    messages := topicData.messages.getD []
    isNameManuallyEdited := some (topicData.isNameManuallyEdited.getD false) }

/-- `TopicApiService.createTopic`: resolve the assistant (any failure is
wrapped to `'Failed to create topic'` by the catch), build the topic, dispatch
`assistants/addTopic`, then best-effort `db.topics.add` whose failure is
caught by the inner try/catch and swallowed. -/
def createTopic (s : AppState) (db : DurableStore) (assistantId : String)
    (topicData : TopicPatch) (freshId now : String) (out : DbOutcome) :
    OpResult Topic :=
  match AssistantApiService.getAssistantById s assistantId with
  | Except.error _ => ⟨Except.error "Failed to create topic", [], db⟩
  | Except.ok none => ⟨Except.error "Failed to create topic", [], db⟩
  | Except.ok (some _) =>
    let newTopic := mkNewTopic assistantId freshId now topicData
    let acts := [ReduxAction.addTopic assistantId newTopic]
    match out with
    | DbOutcome.unavailable => ⟨Except.ok newTopic, acts, db⟩
    | DbOutcome.ok => ⟨Except.ok newTopic, acts, dbAdd db newTopic.id []⟩
    | DbOutcome.fails _ => ⟨Except.ok newTopic, acts, db⟩

/-- `TopicApiService.updateTopic`: merge `{...topic, ...updates, id,
assistantId: topic.assistantId, updatedAt: now}` and dispatch
`assistants/updateTopic`. -/
def updateTopic (s : AppState) (db : DurableStore) (id : String)
    (updates : TopicPatch) (now : String) : OpResult Topic :=
  match getTopicById s id with
  | none => ⟨Except.error ("Topic " ++ id ++ " not found"), [], db⟩
  | some topic =>
    let updatedTopic : Topic :=
      { id := id
        assistantId := topic.assistantId
        name := updates.name.getD topic.name
        createdAt := updates.createdAt.getD topic.createdAt
        updatedAt := now
        messages := updates.messages.getD topic.messages
        isNameManuallyEdited :=
          match updates.isNameManuallyEdited with
          | some b => some b
          | none => topic.isNameManuallyEdited }
    ⟨Except.ok updatedTopic, [ReduxAction.updateTopic topic.assistantId updatedTopic], db⟩

/-- `TopicApiService.deleteTopic`: dispatch `assistants/removeTopic`, then
`db.topics.delete` — which, unlike the create/append paths, has no inner
try/catch, so a database failure is rethrown by the outer catch. -/
def deleteTopic (s : AppState) (db : DurableStore) (id : String)
    (out : DbOutcome) : OpResult Unit :=
  match getTopicById s id with
  | none => ⟨Except.error ("Topic " ++ id ++ " not found"), [], db⟩
  | some topic =>
    let acts := [ReduxAction.removeTopic topic.assistantId topic]
    match out with
    | DbOutcome.unavailable => ⟨Except.ok (), acts, db⟩
    | DbOutcome.ok => ⟨Except.ok (), acts, dbDelete db id⟩
    | DbOutcome.fails msg => ⟨Except.error msg, acts, db⟩

/-- The message literal built by `addMessageToTopic`: defaults then
`...message`, so every field is caller-overridable. -/
def mkNewMessage (topic : Topic) (topicId freshId now : String)
    (message : MessagePatch) : Message :=
  { id := message.id.getD freshId
    assistantId := message.assistantId.getD topic.assistantId
    role := message.role.getD "user"
    content := message.content.getD ""
    topicId := message.topicId.getD topicId
    createdAt := message.createdAt.getD now
    status := message.status.getD "success"
    type := message.type.getD "text" }

/-- `TopicApiService.addMessageToTopic`: append the new message to the
topic's array, set `updatedAt`, dispatch `assistants/updateTopic`, then
best-effort `db.topics.update` with the full array; its failure is caught by
the inner try/catch and swallowed. -/
def addMessageToTopic (s : AppState) (db : DurableStore) (topicId : String)
    (message : MessagePatch) (freshId now : String) (out : DbOutcome) :
    OpResult Message :=
  match getTopicById s topicId with
  | none => ⟨Except.error ("Topic " ++ topicId ++ " not found"), [], db⟩
  | some topic =>
    let newMessage := mkNewMessage topic topicId freshId now message
    let updatedTopic : Topic :=
      { topic with messages := topic.messages ++ [newMessage], updatedAt := now }
    let acts := [ReduxAction.updateTopic topic.assistantId updatedTopic]
    match out with
    | DbOutcome.unavailable => ⟨Except.ok newMessage, acts, db⟩
    | DbOutcome.ok => ⟨Except.ok newMessage, acts, dbUpdate db topicId updatedTopic.messages⟩
    | DbOutcome.fails _ => ⟨Except.ok newMessage, acts, db⟩

end TopicApiService

namespace AssistantApiService

/-- The default topic literal built inside `createAssistant`:
`{ id: uuid(), assistantId: assistantData.id || uuid(), name: 'New
Conversation', ... }` (a JavaScript `||`, so an empty caller id also falls
back to a fresh uuid). -/
def mkDefaultTopic (assistantData : AssistantPatch)
    (freshTopicId fallbackAssistantId now : String) : Topic :=
  { id := freshTopicId
    assistantId := jsOr assistantData.id fallbackAssistantId
    name := "New Conversation"
    createdAt := now
    updatedAt := now
    messages := []
    isNameManuallyEdited := some false }

/-- The assistant literal before the `topics[0]` mutation: defaults then
`...assistantData`, so every default — `id` and `topics` included — is
caller-overridable. -/
def mkNewAssistant (assistantData : AssistantPatch)
    (freshTopicId fallbackAssistantId freshAssistantId now : String) : Assistant :=
  { id := assistantData.id.getD freshAssistantId
    name := assistantData.name.getD "New Assistant"
    prompt := assistantData.prompt.getD ""
    topics := assistantData.topics.getD
      [mkDefaultTopic assistantData freshTopicId fallbackAssistantId now]
    type := assistantData.type.getD "assistant"
    emoji := assistantData.emoji.getD "🤖"
    description := assistantData.description.getD ""
    regularPhrases := assistantData.regularPhrases.getD [] }

/-- `AssistantApiService.createAssistant`: build the assistant literal with
defaults then `...assistantData` (every default, including `id` and `topics`,
is caller-overridable), then mutate `topics[0].assistantId` to the new
assistant's id — a step that throws (and the catch wraps to `'Failed to
create assistant'`) when the topics array is empty — and dispatch
`assistants/addAssistant`. -/
def createAssistant (_s : AppState) (db : DurableStore)
    (assistantData : AssistantPatch)
    (freshTopicId fallbackAssistantId freshAssistantId now : String) :
    OpResult Assistant :=
  let newAssistant :=
    mkNewAssistant assistantData freshTopicId fallbackAssistantId freshAssistantId now
  match newAssistant.topics with
  | [] => ⟨Except.error "Failed to create assistant", [], db⟩
  | t0 :: rest =>
    let fixed : Assistant :=
      { newAssistant with topics := { t0 with assistantId := newAssistant.id } :: rest }
    ⟨Except.ok fixed, [ReduxAction.addAssistant fixed], db⟩

/-- `AssistantApiService.updateAssistant`: merge `{...assistant, ...updates,
id}` and dispatch `assistants/updateAssistant`. -/
def updateAssistant (s : AppState) (db : DurableStore) (id : String)
    (updates : AssistantPatch) : OpResult Assistant :=
  match getAssistantById s id with
  | Except.error e => ⟨Except.error e, [], db⟩
  | Except.ok none => ⟨Except.error ("Assistant " ++ id ++ " not found"), [], db⟩
  | Except.ok (some assistant) =>
    let updatedAssistant : Assistant :=
      { id := id
        name := updates.name.getD assistant.name
        prompt := updates.prompt.getD assistant.prompt
        topics := updates.topics.getD assistant.topics
        type := updates.type.getD assistant.type
        emoji := updates.emoji.getD assistant.emoji
        description := updates.description.getD assistant.description
        regularPhrases := updates.regularPhrases.getD assistant.regularPhrases }
    ⟨Except.ok updatedAssistant, [ReduxAction.updateAssistant updatedAssistant], db⟩

/-- `AssistantApiService.deleteAssistant`: NotFound when the id does not
resolve, otherwise dispatch `assistants/removeAssistant` with `{id}`. -/
def deleteAssistant (s : AppState) (db : DurableStore) (id : String) :
    OpResult Unit :=
  match getAssistantById s id with
  | Except.error e => ⟨Except.error e, [], db⟩
  | Except.ok none => ⟨Except.error ("Assistant " ++ id ++ " not found"), [], db⟩
  | Except.ok (some _) => ⟨Except.ok (), [ReduxAction.removeAssistant id], db⟩

end AssistantApiService

/-- The `{id, name, assistantId, createdAt, updatedAt}` projection the MCP
tool and the inline REST route serialize into their success payloads. -/
structure TopicPayload where
  id : String
  name : String
  assistantId : String
  createdAt : String
  updatedAt : String
deriving Repr, DecidableEq

/-- Serialize a topic into the five-field success payload. -/
def Topic.toPayload (t : Topic) : TopicPayload :=
  { id := t.id, name := t.name, assistantId := t.assistantId,
    createdAt := t.createdAt, updatedAt := t.updatedAt }

namespace AssistantMCPService

/-- `AssistantMCPService.createTopic` (the `create_topic` tool handler):
reads `state.assistants.assistants` with no guard (an uninitialized store
throws), resolves the assistant, builds `{id: uuidv4(), name: name || 'New
Topic', assistantId, createdAt/updatedAt: timestamp, messages: []}` —
no `isNameManuallyEdited` field — writes the database row FIRST (a failure
aborts the whole call before any dispatch), then dispatches
`assistants/addTopic` and returns the five-field payload. -/
def createTopic (s : AppState) (db : DurableStore) (assistantId : String)
    (name : Option String) (freshId now : String) (out : DbOutcome) :
    OpResult TopicPayload :=
  match s.assistants with
  | none => ⟨Except.error "Cannot read assistants of undefined", [], db⟩
  | some as =>
    match as.find? (fun a => a.id = assistantId) with
    | none => ⟨Except.error ("Assistant not found: " ++ assistantId), [], db⟩
    | some _ =>
      let newTopic : Topic :=
        { id := freshId
          name := jsOr name "New Topic"
          assistantId := assistantId
          createdAt := now
          updatedAt := now
          messages := []
          isNameManuallyEdited := none }
      match out with
      | DbOutcome.fails msg =>
        ⟨Except.error ("Failed to create topic: " ++ msg), [], db⟩
      | DbOutcome.unavailable =>
        ⟨Except.ok newTopic.toPayload, [ReduxAction.addTopic assistantId newTopic], db⟩
      | DbOutcome.ok =>
        ⟨Except.ok newTopic.toPayload, [ReduxAction.addTopic assistantId newTopic],
          dbAdd db freshId []⟩

end AssistantMCPService

namespace RestTopicsRoute

/-- The inline `router.post('/')` handler of
`src/main/apiServer/routes/topics.ts`: reject a falsy `assistant_id` with
400, then byte-for-byte the same logic as the MCP tool — unguarded state
read, `name || 'New Topic'`, database `add` before the dispatch (an `add`
failure is only caught by the outer handler, so no dispatch happens), and
the same five-field payload with HTTP 201. -/
def createTopic (s : AppState) (db : DurableStore) (assistant_id : Option String)
    (name : Option String) (freshId now : String) (out : DbOutcome) :
    OpResult TopicPayload :=
  match assistant_id with
  | none => ⟨Except.error "assistant_id is required", [], db⟩
  | some aid =>
    if aid = "" then ⟨Except.error "assistant_id is required", [], db⟩
    else
      match s.assistants with
      | none => ⟨Except.error "Failed to create topic: Cannot read assistants of undefined", [], db⟩
      | some as =>
        match as.find? (fun a => a.id = aid) with
        | none => ⟨Except.error "Assistant not found", [], db⟩
        | some _ =>
          let newTopic : Topic :=
            { id := freshId
              name := jsOr name "New Topic"
              assistantId := aid
              createdAt := now
              updatedAt := now
              messages := []
              isNameManuallyEdited := none }
          match out with
          | DbOutcome.fails msg =>
            ⟨Except.error ("Failed to create topic: " ++ msg), [], db⟩
          | DbOutcome.unavailable =>
            ⟨Except.ok newTopic.toPayload, [ReduxAction.addTopic aid newTopic], db⟩
          | DbOutcome.ok =>
            ⟨Except.ok newTopic.toPayload, [ReduxAction.addTopic aid newTopic],
              dbAdd db freshId []⟩

end RestTopicsRoute

/-- Apply a pure rewrite to the assistants collection; an uninitialized
store is left untouched. -/
def AppState.withAssistants (s : AppState) (f : List Assistant → List Assistant) :
    AppState :=
  match s.assistants with
  | none => s
  | some as => { assistants := some (f as) }

/-- Modelled from the spec: the reducers for the dispatched action types
(`assistants/addTopic`, `assistants/updateTopic`, `assistants/removeTopic`,
`assistants/addAssistant`, `assistants/updateAssistant`,
`assistants/removeAssistant`) live in the renderer's Redux store slice,
which is not part of this source tree.  Their effect on the shared store is
modelled from the spec's §4 operation descriptions: add appends to the owning
collection, update replaces the record with the matching id inside the owning
assistant's collection, remove deletes the record with the matching id
(assistant removal cascading to its topics by deleting the whole record). -/
def applyAction (s : AppState) : ReduxAction → AppState
  | ReduxAction.addTopic aid t =>
    s.withAssistants (List.map (fun a =>
      if a.id = aid then { a with topics := a.topics ++ [t] } else a))
  | ReduxAction.updateTopic aid t =>
    s.withAssistants (List.map (fun a =>
      if a.id = aid then
        { a with topics := a.topics.map (fun t0 => if t0.id = t.id then t else t0) }
      else a))
  | ReduxAction.removeTopic aid t =>
    s.withAssistants (List.map (fun a =>
      if a.id = aid then
        { a with topics := a.topics.filter (fun t0 => !(t0.id = t.id)) }
      else a))
  | ReduxAction.addAssistant a =>
    s.withAssistants (fun as => as ++ [a])
  | ReduxAction.updateAssistant a =>
    s.withAssistants (List.map (fun a0 => if a0.id = a.id then a else a0))
  | ReduxAction.removeAssistant id =>
    s.withAssistants (List.filter (fun a => !(a.id = id)))

/-- Run a list of dispatched actions against the shared store, in order. -/
def runActions (s : AppState) (acts : List ReduxAction) : AppState :=
  acts.foldl applyAction s

/-- Every topic is filed under the assistant its `assistantId` names —
the well-formedness the renderer store maintains. -/
def wellFormedB (s : AppState) : Bool :=
  match s.assistants with
  | none => true
  | some as => as.all (fun a => a.topics.all (fun t => t.assistantId = a.id))

/-- How many stored topics carry the given id (for global-uniqueness
hypotheses). -/
def topicCount (s : AppState) (tid : String) : Nat :=
  match s.assistants with
  | none => 0
  | some as => (as.flatMap (fun a => a.topics)).countP (fun t => t.id = tid)

/-- Assistant-metadata view of the store at an id (used to state frame
properties: everything of an assistant except its topic list). -/
def assistantMetaById (s : AppState) (aid : String) : Option AssistantMeta :=
  match s.assistants with
  | none => none
  | some as => (as.find? (fun a => a.id = aid)).map Assistant.stripTopics

/-! ## Concrete fixtures for the witnesses -/

/-- A stored message of the fixture topic. -/
def msg0 : Message :=
  { id := "m0", assistantId := "a1", role := "user", content := "hi",
    topicId := "t1", createdAt := "T0", status := "success", type := "text" }

/-- Fixture topic `t1` owned by assistant `a1`. -/
def topic1 : Topic :=
  { id := "t1", assistantId := "a1", name := "Chat", createdAt := "T0",
    updatedAt := "T0", messages := [msg0], isNameManuallyEdited := some false }

/-- Fixture assistant `a1` holding `topic1`. -/
def assistant1 : Assistant :=
  { id := "a1", name := "Alice", prompt := "", topics := [topic1],
    type := "assistant", emoji := "🤖", description := "", regularPhrases := [] }

/-- A one-assistant shared store. -/
def state1 : AppState := { assistants := some [assistant1] }

/-- The matching durable store: one row for `t1`. -/
def durable1 : DurableStore := [("t1", [msg0])]

/-! ## List-level lemmas about the store scans and the modelled reducers -/

theorem find?_filter_not_self {α : Type} (l : List α) (p : α → Bool) :
    (l.filter (fun x => !(p x))).find? p = none := by
  rw [List.find?_eq_none]
  intro x hx
  have hmem := List.mem_filter.mp hx
  simp only [Bool.not_eq_true'] at hmem
  simp [hmem.2]

theorem find?_filter_of_none {α : Type} (l : List α) (p q : α → Bool)
    (h : l.find? p = none) : (l.filter q).find? p = none := by
  rw [List.find?_eq_none] at h ⊢
  intro x hx
  exact h x (List.mem_filter.mp hx).1

/-- Replacing every topic that carries `ut.id` by `ut` turns the first hit
of a scan for that id into `ut` (and a miss stays a miss). -/
theorem find?_replace_eq (l : List Topic) (tid : String) (ut : Topic)
    (hut : ut.id = tid) :
    (l.map (fun t0 => if t0.id = ut.id then ut else t0)).find?
        (fun x => x.id = tid)
      = (l.find? (fun x => x.id = tid)).map (fun _ => ut) := by
  induction l with
  | nil => simp
  | cons a l ih =>
    by_cases ha : a.id = tid
    · have ha2 : a.id = ut.id := by rw [hut]; exact ha
      simp [ha2, ha, hut, List.find?_cons_of_pos]
    · have ha2 : ¬a.id = ut.id := by rw [hut]; exact ha
      simp only [List.map_cons, if_neg ha2]
      rw [List.find?_cons_of_neg, List.find?_cons_of_neg, ih]
      · simp [ha]
      · simp [ha]

/-- A scan for a different id is untouched by the replacement. -/
theorem find?_replace_ne (l : List Topic) (tid : String) (ut : Topic)
    (hne : ¬tid = ut.id) :
    (l.map (fun t0 => if t0.id = ut.id then ut else t0)).find?
        (fun x => x.id = tid)
      = l.find? (fun x => x.id = tid) := by
  induction l with
  | nil => simp
  | cons a l ih =>
    by_cases ha : a.id = ut.id
    · have hat : ¬a.id = tid := by rw [ha]; intro hc; exact hne hc.symm
      have hut : ¬ut.id = tid := by intro hc; exact hne hc.symm
      simp only [List.map_cons, if_pos ha]
      rw [List.find?_cons_of_neg, List.find?_cons_of_neg, ih]
      · simp [hat]
      · simp [hut]
    · simp only [List.map_cons, if_neg ha]
      by_cases hat : a.id = tid
      · rw [List.find?_cons_of_pos, List.find?_cons_of_pos] <;> simp [hat]
      · rw [List.find?_cons_of_neg, List.find?_cons_of_neg, ih] <;> simp [hat]

/-- A resolved topic carries the id it was looked up by. -/
theorem findTopicIn_id (as : List Assistant) (tid : String) (t : Topic)
    (h : TopicApiService.findTopicIn as tid = some t) : t.id = tid := by
  induction as with
  | nil => simp [TopicApiService.findTopicIn] at h
  | cons a rest ih =>
    rw [TopicApiService.findTopicIn] at h
    cases hfa : a.topics.find? (fun x => x.id = tid) with
    | some t0 =>
      rw [hfa] at h
      cases h
      have := List.find?_some hfa
      simpa using this
    | none =>
      rw [hfa] at h
      exact ih h

/-- `getTopicById` only returns a topic whose id is the requested one. -/
theorem getTopicById_id (s : AppState) (tid : String) (t : Topic)
    (h : TopicApiService.getTopicById s tid = some t) : t.id = tid := by
  unfold TopicApiService.getTopicById at h
  cases hs : s.assistants with
  | none => rw [hs] at h; cases h
  | some as => rw [hs] at h; exact findTopicIn_id as tid t h

/-- Updating (replace-by-id) inside the owning assistant rewrites the first
hit of a global scan to the updated record.  Needs the store well-formed so
that the dispatch target (`topic.assistantId`) is the assistant the scan
found the topic in. -/
theorem findTopicIn_map_update (as : List Assistant) (tid aid : String)
    (topic ut : Topic)
    (hf : TopicApiService.findTopicIn as tid = some topic)
    (hwf : as.all (fun a => a.topics.all (fun t => t.assistantId = a.id)) = true)
    (haid : aid = topic.assistantId)
    (hut : ut.id = tid) :
    TopicApiService.findTopicIn
      (as.map (fun a => if a.id = aid then
        { a with topics := a.topics.map (fun t0 => if t0.id = ut.id then ut else t0) }
       else a)) tid = some ut := by
  induction as with
  | nil => simp [TopicApiService.findTopicIn] at hf
  | cons a rest ih =>
    rw [List.all_cons, Bool.and_eq_true] at hwf
    obtain ⟨hwa, hwrest⟩ := hwf
    rw [TopicApiService.findTopicIn] at hf
    cases hfa : a.topics.find? (fun x => x.id = tid) with
    | some t0 =>
      rw [hfa] at hf
      cases hf
      have hmem := List.mem_of_find?_eq_some hfa
      have hassist : topic.assistantId = a.id := by
        rw [List.all_eq_true] at hwa
        simpa using hwa topic hmem
      have haa : a.id = aid := by rw [haid, hassist]
      simp only [List.map_cons, if_pos haa]
      rw [TopicApiService.findTopicIn, find?_replace_eq _ _ _ hut, hfa]
      rfl
    | none =>
      rw [hfa] at hf
      simp only [List.map_cons]
      by_cases haa : a.id = aid
      · rw [if_pos haa, TopicApiService.findTopicIn,
          find?_replace_eq _ _ _ hut, hfa]
        exact ih hf hwrest
      · rw [if_neg haa, TopicApiService.findTopicIn, hfa]
        exact ih hf hwrest

/-- A global scan for a different topic id does not see the replacement. -/
theorem findTopicIn_map_update_ne (as : List Assistant) (tid aid : String)
    (ut : Topic) (hne : ¬tid = ut.id) :
    TopicApiService.findTopicIn
      (as.map (fun a => if a.id = aid then
        { a with topics := a.topics.map (fun t0 => if t0.id = ut.id then ut else t0) }
       else a)) tid
      = TopicApiService.findTopicIn as tid := by
  induction as with
  | nil => simp [TopicApiService.findTopicIn]
  | cons a rest ih =>
    simp only [List.map_cons]
    by_cases haa : a.id = aid
    · rw [if_pos haa, TopicApiService.findTopicIn, find?_replace_ne _ _ _ hne,
        TopicApiService.findTopicIn]
      cases a.topics.find? (fun x => x.id = tid) with
      | some t0 => rfl
      | none => exact ih
    · rw [if_neg haa, TopicApiService.findTopicIn, TopicApiService.findTopicIn]
      cases a.topics.find? (fun x => x.id = tid) with
      | some t0 => rfl
      | none => exact ih

/-- A missed global scan stays a miss after the remove-reducer runs
(filtering never adds records). -/
theorem findTopicIn_map_remove_none (as : List Assistant) (tid aid tid0 : String)
    (hf : TopicApiService.findTopicIn as tid = none) :
    TopicApiService.findTopicIn
      (as.map (fun a => if a.id = aid then
        { a with topics := a.topics.filter (fun t0 => !(t0.id = tid0)) }
       else a)) tid = none := by
  induction as with
  | nil => simp [TopicApiService.findTopicIn]
  | cons a rest ih =>
    rw [TopicApiService.findTopicIn] at hf
    cases hfa : a.topics.find? (fun x => x.id = tid) with
    | some t0 => rw [hfa] at hf; cases hf
    | none =>
      rw [hfa] at hf
      simp only [List.map_cons]
      by_cases haa : a.id = aid
      · rw [if_pos haa, TopicApiService.findTopicIn,
          find?_filter_of_none _ _ _ hfa]
        exact ih hf
      · rw [if_neg haa, TopicApiService.findTopicIn, hfa]
        exact ih hf

/-- Zero stored occurrences of an id means the global scan misses. -/
theorem findTopicIn_eq_none_of_count_zero (as : List Assistant) (tid : String)
    (h : (as.flatMap (fun a => a.topics)).countP (fun t => t.id = tid) = 0) :
    TopicApiService.findTopicIn as tid = none := by
  induction as with
  | nil => simp [TopicApiService.findTopicIn]
  | cons a rest ih =>
    rw [List.flatMap_cons, List.countP_append] at h
    have h1 : a.topics.countP (fun t => t.id = tid) = 0 :=
      Nat.eq_zero_of_add_eq_zero_right h
    have h2 : (rest.flatMap (fun a => a.topics)).countP (fun t => t.id = tid) = 0 :=
      Nat.eq_zero_of_add_eq_zero_left h
    have hfa : a.topics.find? (fun x => x.id = tid) = none := by
      rw [List.find?_eq_none]
      intro x hx
      exact List.countP_eq_zero.mp h1 x hx
    rw [TopicApiService.findTopicIn, hfa]
    exact ih h2

/-- Removing (filter-by-id) inside the owning assistant makes a globally
unique topic id unresolvable. -/
theorem findTopicIn_map_remove (as : List Assistant) (tid aid : String)
    (topic : Topic)
    (hf : TopicApiService.findTopicIn as tid = some topic)
    (hwf : as.all (fun a => a.topics.all (fun t => t.assistantId = a.id)) = true)
    (haid : aid = topic.assistantId)
    (hcount : (as.flatMap (fun a => a.topics)).countP (fun t => t.id = tid) ≤ 1) :
    TopicApiService.findTopicIn
      (as.map (fun a => if a.id = aid then
        { a with topics := a.topics.filter (fun t0 => !(t0.id = topic.id)) }
       else a)) tid = none := by
  have htid : topic.id = tid := findTopicIn_id as tid topic hf
  induction as with
  | nil => simp [TopicApiService.findTopicIn] at hf
  | cons a rest ih =>
    rw [List.all_cons, Bool.and_eq_true] at hwf
    obtain ⟨hwa, hwrest⟩ := hwf
    rw [TopicApiService.findTopicIn] at hf
    cases hfa : a.topics.find? (fun x => x.id = tid) with
    | some t0 =>
      rw [hfa] at hf
      cases hf
      have hmem := List.mem_of_find?_eq_some hfa
      have hassist : topic.assistantId = a.id := by
        rw [List.all_eq_true] at hwa
        simpa using hwa topic hmem
      have haa : a.id = aid := by rw [haid, hassist]
      simp only [List.map_cons, if_pos haa]
      rw [TopicApiService.findTopicIn]
      have hfilter :
          (a.topics.filter (fun t0 => !(t0.id = topic.id))).find?
            (fun x => x.id = tid) = none := by
        rw [List.find?_eq_none]
        intro x hx
        have hmem2 := List.mem_filter.mp hx
        have hxne : ¬x.id = topic.id := by
          have := hmem2.2
          simpa using this
        simp only [decide_eq_true_eq]
        rw [htid] at hxne
        exact hxne
      rw [hfilter]
      have hcnt1 : 0 < a.topics.countP (fun t => t.id = tid) := by
        rw [List.countP_pos_iff]
        refine ⟨topic, hmem, ?_⟩
        simp [htid]
      rw [List.flatMap_cons, List.countP_append] at hcount
      have h2 : (rest.flatMap (fun a => a.topics)).countP (fun t => t.id = tid) = 0 := by
        omega
      have hrest := findTopicIn_eq_none_of_count_zero rest tid h2
      exact findTopicIn_map_remove_none rest tid aid topic.id hrest
    | none =>
      rw [hfa] at hf
      rw [List.flatMap_cons, List.countP_append] at hcount
      simp only [List.map_cons]
      by_cases haa : a.id = aid
      · rw [if_pos haa, TopicApiService.findTopicIn,
          find?_filter_of_none _ _ _ hfa]
        exact ih hf hwrest (by omega)
      · rw [if_neg haa, TopicApiService.findTopicIn, hfa]
        exact ih hf hwrest (by omega)

/-- The assistant-metadata view of every id is untouched by a topic-update
dispatch (the reducer only rewrites a topic list). -/
theorem assistantMeta_map_update (as : List Assistant) (aid0 aid : String)
    (ut : Topic) :
    ((as.map (fun a => if a.id = aid0 then
        { a with topics := a.topics.map (fun t0 => if t0.id = ut.id then ut else t0) }
       else a)).find? (fun a => a.id = aid)).map Assistant.stripTopics
      = (as.find? (fun a => a.id = aid)).map Assistant.stripTopics := by
  induction as with
  | nil => simp
  | cons a rest ih =>
    simp only [List.map_cons]
    by_cases haa : a.id = aid0
    · rw [if_pos haa]
      by_cases hsel : a.id = aid
      · rw [List.find?_cons_of_pos, List.find?_cons_of_pos]
        · rfl
        · simp [hsel]
        · simp [hsel]
      · rw [List.find?_cons_of_neg, List.find?_cons_of_neg, ih]
        · simp [hsel]
        · simp [hsel]
    · rw [if_neg haa]
      by_cases hsel : a.id = aid
      · rw [List.find?_cons_of_pos, List.find?_cons_of_pos] <;> simp [hsel]
      · rw [List.find?_cons_of_neg, List.find?_cons_of_neg, ih] <;> simp [hsel]

/-- After dispatching `assistants/updateTopic` for a resolved topic, the
global lookup of that id returns the updated record (well-formed store). -/
theorem getTopicById_after_update (s : AppState) (tid : String) (topic ut : Topic)
    (hf : TopicApiService.getTopicById s tid = some topic)
    (hwf : wellFormedB s = true)
    (hut : ut.id = tid) :
    TopicApiService.getTopicById
      (applyAction s (ReduxAction.updateTopic topic.assistantId ut)) tid
      = some ut := by
  cases hs : s.assistants with
  | none => unfold TopicApiService.getTopicById at hf; rw [hs] at hf; cases hf
  | some as =>
    unfold TopicApiService.getTopicById at hf
    rw [hs] at hf
    unfold wellFormedB at hwf
    rw [hs] at hwf
    unfold applyAction AppState.withAssistants
    rw [hs]
    unfold TopicApiService.getTopicById
    exact findTopicIn_map_update as tid topic.assistantId topic ut hf hwf rfl hut

/-- A topic-update dispatch leaves the lookup of every other topic id
unchanged. -/
theorem getTopicById_after_update_ne (s : AppState) (tid aid : String)
    (ut : Topic) (hne : ¬tid = ut.id) :
    TopicApiService.getTopicById (applyAction s (ReduxAction.updateTopic aid ut)) tid
      = TopicApiService.getTopicById s tid := by
  cases hs : s.assistants with
  | none =>
    unfold applyAction AppState.withAssistants
    rw [hs]
  | some as =>
    unfold applyAction AppState.withAssistants
    rw [hs]
    unfold TopicApiService.getTopicById
    rw [hs]
    exact findTopicIn_map_update_ne as tid aid ut hne

/-- A topic-update dispatch leaves every assistant's metadata unchanged. -/
theorem assistantMetaById_after_update (s : AppState) (aid0 aid : String)
    (ut : Topic) :
    assistantMetaById (applyAction s (ReduxAction.updateTopic aid0 ut)) aid
      = assistantMetaById s aid := by
  cases hs : s.assistants with
  | none =>
    unfold applyAction AppState.withAssistants
    rw [hs]
  | some as =>
    unfold applyAction AppState.withAssistants
    rw [hs]
    unfold assistantMetaById
    rw [hs]
    exact assistantMeta_map_update as aid0 aid ut

/-- After dispatching `assistants/removeTopic` for a resolved, globally
unique topic, the global lookup of that id misses. -/
theorem getTopicById_after_remove (s : AppState) (tid : String) (topic : Topic)
    (hf : TopicApiService.getTopicById s tid = some topic)
    (hwf : wellFormedB s = true)
    (hcount : topicCount s tid ≤ 1) :
    TopicApiService.getTopicById
      (applyAction s (ReduxAction.removeTopic topic.assistantId topic)) tid
      = none := by
  cases hs : s.assistants with
  | none => unfold TopicApiService.getTopicById at hf; rw [hs] at hf; cases hf
  | some as =>
    unfold TopicApiService.getTopicById at hf
    rw [hs] at hf
    unfold wellFormedB at hwf
    rw [hs] at hwf
    unfold topicCount at hcount
    rw [hs] at hcount
    unfold applyAction AppState.withAssistants
    rw [hs]
    unfold TopicApiService.getTopicById
    exact findTopicIn_map_remove as tid topic.assistantId topic hf hwf rfl hcount

/-- After dispatching `assistants/removeAssistant`, the scan for that id
misses. -/
theorem getAssistantById_after_remove (s : AppState) (id : String)
    (as : List Assistant) (hs : s.assistants = some as) :
    AssistantApiService.getAssistantById
      (applyAction s (ReduxAction.removeAssistant id)) id
      = Except.ok none := by
  simp only [applyAction, AppState.withAssistants, hs]
  unfold AssistantApiService.getAssistantById
  exact congrArg Except.ok (find?_filter_not_self as (fun a => a.id = id))

/-! ## Claims -/

/-- C3, counterexample: with the assistants collection uninitialized,
`getAllAssistants` signals an error instead of returning an empty
sequence — the unguarded `.map` throws and the catch rethrows. -/
theorem C3_counterexample :
    AssistantApiService.getAllAssistants { assistants := none }
      = Except.error "Failed to retrieve assistants"
    ∧ ∀ l : List AssistantMeta,
        AssistantApiService.getAllAssistants { assistants := none }
          ≠ Except.ok l := by
  refine ⟨rfl, fun l h => ?_⟩
  cases h

/-- C3 (amended): `getAllAssistants` succeeds and returns the
topics-stripped records whenever the collection is initialized (even when
empty), but fails with `'Failed to retrieve assistants'` when it is not;
the topic-listing path (`getAllTopics`), by contrast, returns an empty
sequence on an uninitialized store. -/
theorem C3_amended (as : List Assistant) :
    AssistantApiService.getAllAssistants { assistants := some as }
      = Except.ok (as.map Assistant.stripTopics)
    ∧ AssistantApiService.getAllAssistants { assistants := none }
      = Except.error "Failed to retrieve assistants"
    ∧ TopicApiService.getAllTopics { assistants := none } none = Except.ok []
    ∧ TopicApiService.getAllTopics { assistants := none } (some "a1")
      = Except.ok [] :=
  ⟨rfl, rfl, rfl, rfl⟩

/-- C2, counterexample: on a resolving topic id, a durable-store delete
failure is NOT swallowed — `deleteTopic` returns the error to the caller,
after the shared-store removal has already been dispatched. -/
theorem C2_counterexample :
    (TopicApiService.deleteTopic state1 durable1 "t1"
        (DbOutcome.fails "db boom")).result
      = Except.error "db boom"
    ∧ (TopicApiService.deleteTopic state1 durable1 "t1"
        (DbOutcome.fails "db boom")).actions
      = [ReduxAction.removeTopic "a1" topic1] := by
  constructor <;> rfl

/-- C2 (amended): for every resolving topic id, `deleteTopic` first
dispatches the shared-store removal and then issues the durable-store
delete; the removal dispatch happens regardless of the durable outcome, a
successful durable delete erases the row, but a durable-delete failure is
rethrown — the call fails while the already-dispatched shared-store removal
stands (no rollback). -/
theorem C2_amended (s : AppState) (db : DurableStore) (id : String)
    (topic : Topic)
    (hf : TopicApiService.getTopicById s id = some topic) :
    (∀ out, (TopicApiService.deleteTopic s db id out).actions
        = [ReduxAction.removeTopic topic.assistantId topic])
    ∧ (∀ msg, (TopicApiService.deleteTopic s db id (DbOutcome.fails msg)).result
        = Except.error msg)
    ∧ (TopicApiService.deleteTopic s db id DbOutcome.ok).result = Except.ok ()
    ∧ (TopicApiService.deleteTopic s db id DbOutcome.ok).durable = dbDelete db id
    ∧ (∀ msg, (TopicApiService.deleteTopic s db id (DbOutcome.fails msg)).durable
        = db) := by
  unfold TopicApiService.deleteTopic
  rw [hf]
  exact ⟨fun out => by cases out <;> rfl, fun _ => rfl, rfl, rfl, fun _ => rfl⟩

/-- C2 witness: the amended statement at the concrete fixture store. -/
theorem C2_amended_witness :
    (∀ out, (TopicApiService.deleteTopic state1 durable1 "t1" out).actions
        = [ReduxAction.removeTopic topic1.assistantId topic1])
    ∧ (∀ msg, (TopicApiService.deleteTopic state1 durable1 "t1"
        (DbOutcome.fails msg)).result = Except.error msg)
    ∧ (TopicApiService.deleteTopic state1 durable1 "t1" DbOutcome.ok).result
        = Except.ok ()
    ∧ (TopicApiService.deleteTopic state1 durable1 "t1" DbOutcome.ok).durable
        = dbDelete durable1 "t1"
    ∧ (∀ msg, (TopicApiService.deleteTopic state1 durable1 "t1"
        (DbOutcome.fails msg)).durable = durable1) :=
  C2_amended state1 durable1 "t1" topic1 (by decide)

/-- C4, counterexample: a caller-supplied `id` in the fields object is NOT
replaced by the freshly generated one — `...topicData` spreads after the
defaults, so the returned topic carries the caller's id. -/
theorem C4_counterexample :
    ((TopicApiService.createTopic state1 durable1 "a1" { id := some "hijack" }
        "fresh1" "T1" DbOutcome.ok).result.map Topic.id)
      = Except.ok "hijack"
    ∧ ((TopicApiService.createTopic state1 durable1 "a1" { id := some "hijack" }
        "fresh1" "T1" DbOutcome.ok).result.map Topic.id)
      ≠ Except.ok "fresh1" := by
  constructor
  · rfl
  · decide

/-- C4 (amended): for every resolving assistant id, the topic returned by
`createTopic` takes every defaulted field — `id`, `name`, `messages`,
`isNameManuallyEdited` — from the caller patch when supplied, falling back
to the fresh id / `"New Conversation"` / `[]` / `false` otherwise; only
`assistantId` is forced to the resolved assistant's id regardless of caller
input, and the same record is dispatched to the shared store. -/
theorem C4_amended (s : AppState) (db : DurableStore) (aid : String)
    (topicData : TopicPatch) (freshId now : String) (out : DbOutcome)
    (a : Assistant)
    (hres : AssistantApiService.getAssistantById s aid = Except.ok (some a)) :
    ∃ t, (TopicApiService.createTopic s db aid topicData freshId now out).result
        = Except.ok t
      ∧ t.assistantId = aid
      ∧ t.id = topicData.id.getD freshId
      ∧ t.name = topicData.name.getD "New Conversation"
      ∧ t.messages = topicData.messages.getD []
      ∧ t.isNameManuallyEdited = some (topicData.isNameManuallyEdited.getD false)
      ∧ (TopicApiService.createTopic s db aid topicData freshId now out).actions
          = [ReduxAction.addTopic aid t] := by
  refine ⟨TopicApiService.mkNewTopic aid freshId now topicData,
    ?_, rfl, rfl, rfl, rfl, rfl, ?_⟩
  · unfold TopicApiService.createTopic
    rw [hres]
    cases out <;> rfl
  · unfold TopicApiService.createTopic
    rw [hres]
    cases out <;> rfl

/-- C4 witness: the amended statement at the fixture store, with a caller
patch that tries to override both `id` and `assistantId`. -/
theorem C4_amended_witness :
    ∃ t, (TopicApiService.createTopic state1 durable1 "a1"
        { id := some "hijack", assistantId := some "evil" } "fresh1" "T1"
        DbOutcome.ok).result = Except.ok t
      ∧ t.assistantId = "a1"
      ∧ t.id = "hijack"
      ∧ t.name = "New Conversation"
      ∧ t.messages = []
      ∧ t.isNameManuallyEdited = some false
      ∧ (TopicApiService.createTopic state1 durable1 "a1"
          { id := some "hijack", assistantId := some "evil" } "fresh1" "T1"
          DbOutcome.ok).actions = [ReduxAction.addTopic "a1" t] :=
  C4_amended state1 durable1 "a1"
    { id := some "hijack", assistantId := some "evil" } "fresh1" "T1"
    DbOutcome.ok assistant1 (by decide)

/-- C5, counterexample: `createAssistant` does not force a fresh id nor a
one-element topic list — a caller patch carrying `id` and a two-element
`topics` array lands verbatim (only `topics[0].assistantId` is rewritten). -/
theorem C5_counterexample :
    ((AssistantApiService.createAssistant state1 durable1
        { id := some "custom", topics := some [topic1, topic1] }
        "ft" "fb" "fa" "T1").result.map Assistant.id)
      = Except.ok "custom"
    ∧ ((AssistantApiService.createAssistant state1 durable1
        { id := some "custom", topics := some [topic1, topic1] }
        "ft" "fb" "fa" "T1").result.map (fun a => a.topics.length))
      = Except.ok 2 := by
  constructor <;> rfl

/-- C5 (amended): `createAssistant` fills only unset fields with the
defaults (`name` `"New Assistant"`, `type` `"assistant"`, fresh `id`, a
single default topic); a caller-supplied `id` or `topics` array overrides
them.  Whenever the resulting topics array is nonempty its first element's
`assistantId` is rewritten to the new assistant's id; with no caller
fields the result has the fresh id and exactly one topic whose
`assistantId` equals the new assistant's id. -/
theorem C5_amended (s : AppState) (db : DurableStore) (p : AssistantPatch)
    (ftid fbid faid now : String)
    (hne : p.topics ≠ some []) :
    ∃ a, (AssistantApiService.createAssistant s db p ftid fbid faid now).result
        = Except.ok a
      ∧ a.id = p.id.getD faid
      ∧ a.name = p.name.getD "New Assistant"
      ∧ a.type = p.type.getD "assistant"
      ∧ (a.topics.head?.map Topic.assistantId) = some a.id
      ∧ (p.topics = none → a.topics.length = 1)
      ∧ (AssistantApiService.createAssistant s db p ftid fbid faid now).actions
          = [ReduxAction.addAssistant a] := by
  cases hp : p.topics with
  | none =>
    refine ⟨{ AssistantApiService.mkNewAssistant p ftid fbid faid now with
        topics := [{ AssistantApiService.mkDefaultTopic p ftid fbid now with
          assistantId := (AssistantApiService.mkNewAssistant p ftid fbid faid now).id }] },
      ?_, rfl, rfl, rfl, rfl, fun _ => rfl, ?_⟩
    · unfold AssistantApiService.createAssistant AssistantApiService.mkNewAssistant
      simp only [hp, Option.getD_none]
    · unfold AssistantApiService.createAssistant AssistantApiService.mkNewAssistant
      simp only [hp, Option.getD_none]
  | some ts =>
    cases ts with
    | nil => exact absurd hp hne
    | cons t0 rest =>
      refine ⟨{ AssistantApiService.mkNewAssistant p ftid fbid faid now with
          topics := { t0 with
            assistantId := (AssistantApiService.mkNewAssistant p ftid fbid faid now).id }
            :: rest },
        ?_, rfl, rfl, rfl, rfl, fun h => ?_, ?_⟩
      · unfold AssistantApiService.createAssistant AssistantApiService.mkNewAssistant
        simp only [hp, Option.getD_some]
      · exact Option.noConfusion h
      · unfold AssistantApiService.createAssistant AssistantApiService.mkNewAssistant
        simp only [hp, Option.getD_some]

/-- C5 witness: the amended statement for a caller supplying no fields. -/
theorem C5_amended_witness :
    ∃ a, (AssistantApiService.createAssistant state1 durable1 {}
        "ft" "fb" "fa" "T1").result = Except.ok a
      ∧ a.id = ({} : AssistantPatch).id.getD "fa"
      ∧ a.name = ({} : AssistantPatch).name.getD "New Assistant"
      ∧ a.type = ({} : AssistantPatch).type.getD "assistant"
      ∧ (a.topics.head?.map Topic.assistantId) = some a.id
      ∧ (({} : AssistantPatch).topics = none → a.topics.length = 1)
      ∧ (AssistantApiService.createAssistant state1 durable1 {}
          "ft" "fb" "fa" "T1").actions = [ReduxAction.addAssistant a] :=
  C5_amended state1 durable1 {} "ft" "fb" "fa" "T1" (by decide)

/-- C7 (confirmed): for every resolving topic id and arbitrary update
fields — even ones carrying `id` and/or `assistantId` — the merged topic
returned and written back by `updateTopic` keeps the pre-existing topic's
`id` and `assistantId`, and its `updatedAt` is set to the current time
unconditionally. -/
theorem C7_immutable_merge (s : AppState) (db : DurableStore) (id : String)
    (updates : TopicPatch) (now : String) (topic : Topic)
    (hf : TopicApiService.getTopicById s id = some topic) :
    ∃ ut, (TopicApiService.updateTopic s db id updates now).result = Except.ok ut
      ∧ ut.id = topic.id
      ∧ ut.assistantId = topic.assistantId
      ∧ ut.updatedAt = now
      ∧ (TopicApiService.updateTopic s db id updates now).actions
          = [ReduxAction.updateTopic topic.assistantId ut] := by
  have hid : topic.id = id := getTopicById_id s id topic hf
  unfold TopicApiService.updateTopic
  rw [hf]
  exact ⟨_, rfl, hid.symm, rfl, rfl, rfl⟩

/-- C7 witness: the fixture topic updated with fields that try to override
both immutable identifiers. -/
theorem C7_immutable_merge_witness :
    ∃ ut, (TopicApiService.updateTopic state1 durable1 "t1"
        { id := some "evil", assistantId := some "evil2" } "T9").result
        = Except.ok ut
      ∧ ut.id = topic1.id
      ∧ ut.assistantId = topic1.assistantId
      ∧ ut.updatedAt = "T9"
      ∧ (TopicApiService.updateTopic state1 durable1 "t1"
          { id := some "evil", assistantId := some "evil2" } "T9").actions
          = [ReduxAction.updateTopic topic1.assistantId ut] :=
  C7_immutable_merge state1 durable1 "t1"
    { id := some "evil", assistantId := some "evil2" } "T9" topic1 (by decide)

/-- C8 (confirmed): `send_message` against a topic id that does not resolve
fails with the NotFound error, dispatches nothing to the shared store
(which is therefore unchanged) and leaves the durable store untouched. -/
theorem C8_notfound_no_mutation (s : AppState) (db : DurableStore)
    (tid : String) (p : MessagePatch) (freshId now : String) (out : DbOutcome)
    (hf : TopicApiService.getTopicById s tid = none) :
    (TopicApiService.addMessageToTopic s db tid p freshId now out).result
      = Except.error ("Topic " ++ tid ++ " not found")
    ∧ (TopicApiService.addMessageToTopic s db tid p freshId now out).actions = []
    ∧ (TopicApiService.addMessageToTopic s db tid p freshId now out).durable = db
    ∧ runActions s
        (TopicApiService.addMessageToTopic s db tid p freshId now out).actions
        = s := by
  unfold TopicApiService.addMessageToTopic
  rw [hf]
  exact ⟨rfl, rfl, rfl, rfl⟩

/-- C8 witness: sending to the unknown id `"nope"` on the fixture store. -/
theorem C8_notfound_no_mutation_witness :
    (TopicApiService.addMessageToTopic state1 durable1 "nope"
        { content := some "hello" } "m9" "T9" DbOutcome.ok).result
      = Except.error ("Topic " ++ "nope" ++ " not found")
    ∧ (TopicApiService.addMessageToTopic state1 durable1 "nope"
        { content := some "hello" } "m9" "T9" DbOutcome.ok).actions = []
    ∧ (TopicApiService.addMessageToTopic state1 durable1 "nope"
        { content := some "hello" } "m9" "T9" DbOutcome.ok).durable = durable1
    ∧ runActions state1
        (TopicApiService.addMessageToTopic state1 durable1 "nope"
          { content := some "hello" } "m9" "T9" DbOutcome.ok).actions
        = state1 :=
  C8_notfound_no_mutation state1 durable1 "nope" { content := some "hello" }
    "m9" "T9" DbOutcome.ok (by decide)

/-- C1, counterexample: with identical arguments (assistant `"a1"`, no
name, same fresh id and timestamp, database healthy), the topic record
built by `TopicApiService.createTopic` and the one built (and dispatched)
by the MCP `create_topic` tool differ: the default names disagree
(`"New Conversation"` vs `"New Topic"`), the field sets disagree
(`isNameManuallyEdited` present vs absent), and the dispatched state
transitions differ. -/
theorem C1_counterexample :
    ((TopicApiService.createTopic state1 durable1 "a1" {} "f1" "T1"
        DbOutcome.ok).result.map Topic.name)
      = Except.ok "New Conversation"
    ∧ ((AssistantMCPService.createTopic state1 durable1 "a1" none "f1" "T1"
        DbOutcome.ok).result.map TopicPayload.name)
      = Except.ok "New Topic"
    ∧ ((TopicApiService.createTopic state1 durable1 "a1" {} "f1" "T1"
        DbOutcome.ok).result.map Topic.isNameManuallyEdited)
      = Except.ok (some false)
    ∧ (TopicApiService.createTopic state1 durable1 "a1" {} "f1" "T1"
        DbOutcome.ok).actions
      ≠ (AssistantMCPService.createTopic state1 durable1 "a1" none "f1" "T1"
        DbOutcome.ok).actions := by
  refine ⟨rfl, rfl, rfl, ?_⟩
  decide

/-- C1 (amended): the two surfaces that share the inline construction — the
REST `POST /v1/topics` route and the MCP `create_topic` tool — are
equivalent: invoked with the same arguments, the same generated id and the
same timestamp, they produce the same success payload (when both succeed),
dispatch the same actions to the shared store, and leave the durable store
in the same state.  `TopicApiService.createTopic`, used by the service-layer
surface, is NOT equivalent to them: it defaults the name to
`"New Conversation"` instead of `"New Topic"` and adds the
`isNameManuallyEdited` field, so the original three-way claim fails. -/
theorem C1_amended (s : AppState) (db : DurableStore) (aid : String)
    (name : Option String) (freshId now : String) (out : DbOutcome)
    (hne : ¬aid = "") :
    (RestTopicsRoute.createTopic s db (some aid) name freshId now out).result.toOption
      = (AssistantMCPService.createTopic s db aid name freshId now out).result.toOption
    ∧ (RestTopicsRoute.createTopic s db (some aid) name freshId now out).actions
      = (AssistantMCPService.createTopic s db aid name freshId now out).actions
    ∧ (RestTopicsRoute.createTopic s db (some aid) name freshId now out).durable
      = (AssistantMCPService.createTopic s db aid name freshId now out).durable := by
  cases hs : s.assistants with
  | none =>
    simp [RestTopicsRoute.createTopic, AssistantMCPService.createTopic, hs,
      hne, Except.toOption]
  | some as =>
    cases hfind : as.find? (fun a => a.id = aid) with
    | none =>
      simp [RestTopicsRoute.createTopic, AssistantMCPService.createTopic, hs,
        hfind, hne, Except.toOption]
    | some a =>
      cases out <;>
        simp [RestTopicsRoute.createTopic, AssistantMCPService.createTopic, hs,
          hfind, hne, Except.toOption]

/-- C1 witness: REST route and MCP tool agree on the fixture store. -/
theorem C1_amended_witness :
    (RestTopicsRoute.createTopic state1 durable1 (some "a1") none "f1" "T1"
        DbOutcome.ok).result.toOption
      = (AssistantMCPService.createTopic state1 durable1 "a1" none "f1" "T1"
        DbOutcome.ok).result.toOption
    ∧ (RestTopicsRoute.createTopic state1 durable1 (some "a1") none "f1" "T1"
        DbOutcome.ok).actions
      = (AssistantMCPService.createTopic state1 durable1 "a1" none "f1" "T1"
        DbOutcome.ok).actions
    ∧ (RestTopicsRoute.createTopic state1 durable1 (some "a1") none "f1" "T1"
        DbOutcome.ok).durable
      = (AssistantMCPService.createTopic state1 durable1 "a1" none "f1" "T1"
        DbOutcome.ok).durable :=
  C1_amended state1 durable1 "a1" none "f1" "T1" DbOutcome.ok (by decide)

/-- The update reducer preserves well-formedness when the updated record
names the dispatch target as its owner. -/
theorem wellFormedB_after_update (s : AppState) (aid : String) (ut : Topic)
    (hwf : wellFormedB s = true) (hass : ut.assistantId = aid) :
    wellFormedB (applyAction s (ReduxAction.updateTopic aid ut)) = true := by
  cases hs : s.assistants with
  | none =>
    simp only [applyAction, AppState.withAssistants, hs]
    exact hwf
  | some as =>
    simp only [applyAction, AppState.withAssistants, hs]
    unfold wellFormedB at hwf ⊢
    rw [hs] at hwf
    simp only []
    rw [List.all_eq_true] at hwf ⊢
    intro a' ha'
    obtain ⟨a, ha, rfl⟩ := List.mem_map.mp ha'
    by_cases haa : a.id = aid
    · rw [if_pos haa]
      have hwa := hwf a ha
      rw [List.all_eq_true] at hwa
      simp only [List.all_eq_true]
      intro t0' ht0'
      obtain ⟨t0, ht0, rfl⟩ := List.mem_map.mp ht0'
      by_cases h0 : t0.id = ut.id
      · rw [if_pos h0]
        simp only [decide_eq_true_eq]
        rw [hass, haa]
      · rw [if_neg h0]
        exact hwa t0 ht0
    · rw [if_neg haa]
      exact hwf a ha

/-- What one successful-resolution `addMessageToTopic` call does: the
returned message, the single dispatched action carrying the appended-to
topic, the post-dispatch lookup of the topic, and preservation of
well-formedness. -/
theorem addMessage_post (s : AppState) (db : DurableStore) (tid : String)
    (p : MessagePatch) (freshId now : String) (out : DbOutcome) (topic : Topic)
    (hf : TopicApiService.getTopicById s tid = some topic)
    (hwf : wellFormedB s = true) :
    (TopicApiService.addMessageToTopic s db tid p freshId now out).result
      = Except.ok (TopicApiService.mkNewMessage topic tid freshId now p)
    ∧ (TopicApiService.addMessageToTopic s db tid p freshId now out).actions
      = [ReduxAction.updateTopic topic.assistantId
          { topic with
            messages := topic.messages
              ++ [TopicApiService.mkNewMessage topic tid freshId now p],
            updatedAt := now }]
    ∧ TopicApiService.getTopicById
        (runActions s
          (TopicApiService.addMessageToTopic s db tid p freshId now out).actions)
        tid
      = some { topic with
          messages := topic.messages
            ++ [TopicApiService.mkNewMessage topic tid freshId now p],
          updatedAt := now }
    ∧ wellFormedB
        (runActions s
          (TopicApiService.addMessageToTopic s db tid p freshId now out).actions)
      = true := by
  have htid : topic.id = tid := getTopicById_id s tid topic hf
  have hres : (TopicApiService.addMessageToTopic s db tid p freshId now out).result
      = Except.ok (TopicApiService.mkNewMessage topic tid freshId now p) := by
    unfold TopicApiService.addMessageToTopic
    rw [hf]
    cases out <;> rfl
  have hacts : (TopicApiService.addMessageToTopic s db tid p freshId now out).actions
      = [ReduxAction.updateTopic topic.assistantId
          { topic with
            messages := topic.messages
              ++ [TopicApiService.mkNewMessage topic tid freshId now p],
            updatedAt := now }] := by
    unfold TopicApiService.addMessageToTopic
    rw [hf]
    cases out <;> rfl
  refine ⟨hres, hacts, ?_, ?_⟩
  · rw [hacts]
    exact getTopicById_after_update s tid topic _ hf hwf htid
  · rw [hacts]
    exact wellFormedB_after_update s topic.assistantId _ hwf rfl

/-- C6 (confirmed): `addMessageToTopic` is append-only — on a resolving
topic id (in a well-formed store) the topic written back carries exactly the
old message sequence with the one new message appended at the end, and after
the dispatch `getTopicMessages` returns it; a second sequential call appends
its message after the first, so the order returned equals the call order. -/
theorem C6_append_only (s : AppState) (db : DurableStore) (tid : String)
    (p : MessagePatch) (freshId now : String) (out : DbOutcome) (topic : Topic)
    (hf : TopicApiService.getTopicById s tid = some topic)
    (hwf : wellFormedB s = true) :
    ∃ m, (TopicApiService.addMessageToTopic s db tid p freshId now out).result
        = Except.ok m
      ∧ (TopicApiService.addMessageToTopic s db tid p freshId now out).actions
          = [ReduxAction.updateTopic topic.assistantId
              { topic with messages := topic.messages ++ [m], updatedAt := now }]
      ∧ TopicApiService.getTopicMessages
          (runActions s
            (TopicApiService.addMessageToTopic s db tid p freshId now out).actions)
          tid
          = Except.ok (topic.messages ++ [m])
      ∧ ∀ db2 p2 freshId2 now2 out2,
          ∃ m2, TopicApiService.getTopicMessages
              (runActions
                (runActions s
                  (TopicApiService.addMessageToTopic s db tid p freshId now out).actions)
                (TopicApiService.addMessageToTopic
                  (runActions s
                    (TopicApiService.addMessageToTopic s db tid p freshId now out).actions)
                  db2 tid p2 freshId2 now2 out2).actions)
              tid
            = Except.ok (topic.messages ++ [m] ++ [m2]) := by
  obtain ⟨hres, hacts, hlook, hwf2⟩ :=
    addMessage_post s db tid p freshId now out topic hf hwf
  refine ⟨TopicApiService.mkNewMessage topic tid freshId now p, hres, hacts, ?_, ?_⟩
  · unfold TopicApiService.getTopicMessages
    rw [hlook]
  · intro db2 p2 freshId2 now2 out2
    obtain ⟨_, _, hlook2, _⟩ :=
      addMessage_post
        (runActions s
          (TopicApiService.addMessageToTopic s db tid p freshId now out).actions)
        db2 tid p2 freshId2 now2 out2 _ hlook hwf2
    refine ⟨TopicApiService.mkNewMessage
        { topic with
          messages := topic.messages
            ++ [TopicApiService.mkNewMessage topic tid freshId now p],
          updatedAt := now } tid freshId2 now2 p2, ?_⟩
    unfold TopicApiService.getTopicMessages
    rw [hlook2]

/-- C6 witness: appending to the fixture topic. -/
theorem C6_append_only_witness :
    ∃ m, (TopicApiService.addMessageToTopic state1 durable1 "t1"
        { content := some "hello" } "m1" "T2" DbOutcome.ok).result = Except.ok m
      ∧ (TopicApiService.addMessageToTopic state1 durable1 "t1"
          { content := some "hello" } "m1" "T2" DbOutcome.ok).actions
          = [ReduxAction.updateTopic topic1.assistantId
              { topic1 with messages := topic1.messages ++ [m], updatedAt := "T2" }]
      ∧ TopicApiService.getTopicMessages
          (runActions state1
            (TopicApiService.addMessageToTopic state1 durable1 "t1"
              { content := some "hello" } "m1" "T2" DbOutcome.ok).actions)
          "t1"
          = Except.ok (topic1.messages ++ [m])
      ∧ ∀ db2 p2 freshId2 now2 out2,
          ∃ m2, TopicApiService.getTopicMessages
              (runActions
                (runActions state1
                  (TopicApiService.addMessageToTopic state1 durable1 "t1"
                    { content := some "hello" } "m1" "T2" DbOutcome.ok).actions)
                (TopicApiService.addMessageToTopic
                  (runActions state1
                    (TopicApiService.addMessageToTopic state1 durable1 "t1"
                      { content := some "hello" } "m1" "T2" DbOutcome.ok).actions)
                  db2 "t1" p2 freshId2 now2 out2).actions)
              "t1"
            = Except.ok (topic1.messages ++ [m] ++ [m2]) :=
  C6_append_only state1 durable1 "t1" { content := some "hello" } "m1" "T2"
    DbOutcome.ok topic1 (by decide) (by decide)

/-- C10 (confirmed): the topic record `addMessageToTopic` writes back
differs from the pre-existing one only in `messages` (one message appended)
and `updatedAt`; it issues exactly one dispatch, and that dispatch leaves
the lookup of every other topic id and the metadata of every assistant
unchanged. -/
theorem C10_frame (s : AppState) (db : DurableStore) (tid : String)
    (p : MessagePatch) (freshId now : String) (out : DbOutcome) (topic : Topic)
    (hf : TopicApiService.getTopicById s tid = some topic) :
    ∃ m ut, (TopicApiService.addMessageToTopic s db tid p freshId now out).result
        = Except.ok m
      ∧ (TopicApiService.addMessageToTopic s db tid p freshId now out).actions
          = [ReduxAction.updateTopic topic.assistantId ut]
      ∧ ut.id = topic.id
      ∧ ut.assistantId = topic.assistantId
      ∧ ut.name = topic.name
      ∧ ut.createdAt = topic.createdAt
      ∧ ut.isNameManuallyEdited = topic.isNameManuallyEdited
      ∧ ut.messages = topic.messages ++ [m]
      ∧ ut.updatedAt = now
      ∧ (∀ tid2, ¬tid2 = tid →
          TopicApiService.getTopicById
            (runActions s
              (TopicApiService.addMessageToTopic s db tid p freshId now out).actions)
            tid2
          = TopicApiService.getTopicById s tid2)
      ∧ (∀ aid2,
          assistantMetaById
            (runActions s
              (TopicApiService.addMessageToTopic s db tid p freshId now out).actions)
            aid2
          = assistantMetaById s aid2) := by
  have htid : topic.id = tid := getTopicById_id s tid topic hf
  have hacts : (TopicApiService.addMessageToTopic s db tid p freshId now out).actions
      = [ReduxAction.updateTopic topic.assistantId
          { topic with
            messages := topic.messages
              ++ [TopicApiService.mkNewMessage topic tid freshId now p],
            updatedAt := now }] := by
    unfold TopicApiService.addMessageToTopic
    rw [hf]
    cases out <;> rfl
  have hres : (TopicApiService.addMessageToTopic s db tid p freshId now out).result
      = Except.ok (TopicApiService.mkNewMessage topic tid freshId now p) := by
    unfold TopicApiService.addMessageToTopic
    rw [hf]
    cases out <;> rfl
  refine ⟨TopicApiService.mkNewMessage topic tid freshId now p,
    { topic with
      messages := topic.messages
        ++ [TopicApiService.mkNewMessage topic tid freshId now p],
      updatedAt := now },
    hres, hacts, rfl, rfl, rfl, rfl, rfl, rfl, rfl, ?_, ?_⟩
  · intro tid2 hne
    rw [hacts]
    exact getTopicById_after_update_ne s tid2 topic.assistantId _
      (fun hc => hne (hc.trans htid))
  · intro aid2
    rw [hacts]
    exact assistantMetaById_after_update s topic.assistantId aid2 _

/-- C10 witness: the fixture topic, checking the other fixture ids are
untouched. -/
theorem C10_frame_witness :
    ∃ m ut, (TopicApiService.addMessageToTopic state1 durable1 "t1"
        { content := some "hello" } "m1" "T2" DbOutcome.ok).result = Except.ok m
      ∧ (TopicApiService.addMessageToTopic state1 durable1 "t1"
          { content := some "hello" } "m1" "T2" DbOutcome.ok).actions
          = [ReduxAction.updateTopic topic1.assistantId ut]
      ∧ ut.id = topic1.id
      ∧ ut.assistantId = topic1.assistantId
      ∧ ut.name = topic1.name
      ∧ ut.createdAt = topic1.createdAt
      ∧ ut.isNameManuallyEdited = topic1.isNameManuallyEdited
      ∧ ut.messages = topic1.messages ++ [m]
      ∧ ut.updatedAt = "T2"
      ∧ (∀ tid2, ¬tid2 = "t1" →
          TopicApiService.getTopicById
            (runActions state1
              (TopicApiService.addMessageToTopic state1 durable1 "t1"
                { content := some "hello" } "m1" "T2" DbOutcome.ok).actions)
            tid2
          = TopicApiService.getTopicById state1 tid2)
      ∧ (∀ aid2,
          assistantMetaById
            (runActions state1
              (TopicApiService.addMessageToTopic state1 durable1 "t1"
                { content := some "hello" } "m1" "T2" DbOutcome.ok).actions)
            aid2
          = assistantMetaById state1 aid2) :=
  C10_frame state1 durable1 "t1" { content := some "hello" } "m1" "T2"
    DbOutcome.ok topic1 (by decide)

/-- C9 (confirmed, reducers modelled from the spec): for both entity kinds,
a successful delete makes a subsequent get on the same id return
absent / NotFound, and a second delete of the same id fails with the
NotFound error instead of silently succeeding. -/
theorem C9_delete_observable_once (s : AppState) (db : DurableStore)
    (aid tid : String) (a : Assistant) (topic : Topic) (out : DbOutcome)
    (ha : AssistantApiService.getAssistantById s aid = Except.ok (some a))
    (ht : TopicApiService.getTopicById s tid = some topic)
    (hwf : wellFormedB s = true)
    (hcount : topicCount s tid ≤ 1) :
    (AssistantApiService.deleteAssistant s db aid).result = Except.ok ()
    ∧ AssistantApiService.getAssistantById
        (runActions s (AssistantApiService.deleteAssistant s db aid).actions) aid
        = Except.ok none
    ∧ (AssistantApiService.deleteAssistant
        (runActions s (AssistantApiService.deleteAssistant s db aid).actions)
        db aid).result
        = Except.error ("Assistant " ++ aid ++ " not found")
    ∧ (TopicApiService.deleteTopic s db tid DbOutcome.ok).result = Except.ok ()
    ∧ TopicApiService.getTopicById
        (runActions s (TopicApiService.deleteTopic s db tid DbOutcome.ok).actions)
        tid
        = none
    ∧ (TopicApiService.deleteTopic
        (runActions s (TopicApiService.deleteTopic s db tid DbOutcome.ok).actions)
        db tid out).result
        = Except.error ("Topic " ++ tid ++ " not found") := by
  obtain ⟨as, hs⟩ : ∃ as, s.assistants = some as := by
    cases hsa : s.assistants with
    | none =>
      unfold AssistantApiService.getAssistantById at ha
      rw [hsa] at ha
      cases ha
    | some as => exact ⟨as, rfl⟩
  have hacts1 : (AssistantApiService.deleteAssistant s db aid).actions
      = [ReduxAction.removeAssistant aid] := by
    unfold AssistantApiService.deleteAssistant
    rw [ha]
  have h2 : AssistantApiService.getAssistantById
      (runActions s (AssistantApiService.deleteAssistant s db aid).actions) aid
      = Except.ok none := by
    rw [hacts1]
    exact getAssistantById_after_remove s aid as hs
  have hacts2 : (TopicApiService.deleteTopic s db tid DbOutcome.ok).actions
      = [ReduxAction.removeTopic topic.assistantId topic] := by
    unfold TopicApiService.deleteTopic
    rw [ht]
  have h5 : TopicApiService.getTopicById
      (runActions s (TopicApiService.deleteTopic s db tid DbOutcome.ok).actions)
      tid = none := by
    rw [hacts2]
    exact getTopicById_after_remove s tid topic ht hwf hcount
  refine ⟨?_, h2, ?_, ?_, h5, ?_⟩
  · unfold AssistantApiService.deleteAssistant
    rw [ha]
  · revert h2
    generalize (runActions s (AssistantApiService.deleteAssistant s db aid).actions)
      = s2
    intro h2
    unfold AssistantApiService.deleteAssistant
    rw [h2]
  · unfold TopicApiService.deleteTopic
    rw [ht]
  · revert h5
    generalize (runActions s (TopicApiService.deleteTopic s db tid DbOutcome.ok).actions)
      = s2
    intro h5
    unfold TopicApiService.deleteTopic
    rw [h5]

/-- C9 witness: the fixture store, deleting assistant `"a1"` and topic
`"t1"`. -/
theorem C9_delete_observable_once_witness :
    (AssistantApiService.deleteAssistant state1 durable1 "a1").result
      = Except.ok ()
    ∧ AssistantApiService.getAssistantById
        (runActions state1
          (AssistantApiService.deleteAssistant state1 durable1 "a1").actions) "a1"
        = Except.ok none
    ∧ (AssistantApiService.deleteAssistant
        (runActions state1
          (AssistantApiService.deleteAssistant state1 durable1 "a1").actions)
        durable1 "a1").result
        = Except.error ("Assistant " ++ "a1" ++ " not found")
    ∧ (TopicApiService.deleteTopic state1 durable1 "t1" DbOutcome.ok).result
      = Except.ok ()
    ∧ TopicApiService.getTopicById
        (runActions state1
          (TopicApiService.deleteTopic state1 durable1 "t1" DbOutcome.ok).actions)
        "t1"
        = none
    ∧ (TopicApiService.deleteTopic
        (runActions state1
          (TopicApiService.deleteTopic state1 durable1 "t1" DbOutcome.ok).actions)
        durable1 "t1" DbOutcome.ok).result
        = Except.error ("Topic " ++ "t1" ++ " not found") :=
  C9_delete_observable_once state1 durable1 "a1" "t1" assistant1 topic1
    DbOutcome.ok (by decide) (by decide) (by decide) (by decide)
